import Mathlib

/-!
Verification of the Apollo MCP action gateway.

Shallow embedding of the Node.js gateway (`mcp-server/server.js`) of the
Apollo repository, together with proofs and refutations of the specified
properties.  Text is modelled as `List Char` (one entry per code point);
JavaScript string indices are code-unit based, but every string operation
used by the gateway (`length`, `substring`, `lastIndexOf` of `"\n"`,
`trim`, regex scanning) acts uniformly on the characters that appear in
the embedded inputs, so the code-point model is faithful.
-/

set_option autoImplicit false

namespace Apollo

/-- Apostrophe character, used to build string literals of the source. -/
def apos : String := (Char.ofNat 39).toString

/-- Backtick character (U+0060). -/
def btick : Char := Char.ofNat 96

/-- JavaScript `\s` (whitespace) class, restricted to the code points that
can actually occur in the gateway's data (ASCII whitespace plus NBSP and
BOM); `\s` also matches `\n`. -/
def jsWs (c : Char) : Bool :=
  c = ' ' || c = '\t' || c = '\n' || c = '\r' ||
  c = Char.ofNat 11 || c = Char.ofNat 12 || c = Char.ofNat 160 || c = Char.ofNat 65279

/-- JavaScript `\w` (word) class: `[A-Za-z0-9_]`. -/
def jsWord (c : Char) : Bool :=
  (('a' ≤ c && c ≤ 'z') || ('A' ≤ c && c ≤ 'Z') || ('0' ≤ c && c ≤ '9') || c = '_')

/-- Decimal digit test (`\d`). -/
def jsDigit (c : Char) : Bool := '0' ≤ c && c ≤ '9'

/-- ASCII lowering, modelling the case-insensitive `/i` regex flag. -/
def lowerAscii (c : Char) : Char :=
  if 'A' ≤ c && c ≤ 'Z' then Char.ofNat (c.toNat + 32) else c

/-- `String.prototype.includes` on character lists. -/
def jsIncludesL (hay needle : List Char) : Bool := decide (needle <:+: hay)

/-- `String.prototype.includes`. -/
def jsIncludes (hay needle : String) : Bool := jsIncludesL hay.data needle.data

/-- `String.prototype.trim` (both ends) on character lists. -/
def jsTrimL (l : List Char) : List Char :=
  ((l.dropWhile jsWs).reverse.dropWhile jsWs).reverse

/-- `String.prototype.trim`. -/
def jsTrim (s : String) : String := ⟨jsTrimL s.data⟩

/-- `s.substring(0, n)` on a string. -/
def jsTake (s : String) (n : Nat) : String := ⟨s.data.take n⟩

/-! ## Conversation store

`const conversationMap = new Map();  // chatId -> conversation_id`
modelled as an association list keyed by the channel identity. -/

/-- The process-wide conversation map. -/
def ConvMap : Type := List (String × String)

/-- `conversationMap.get(chatId)`. -/
def ConvMap.get? (m : ConvMap) (k : String) : Option String :=
  match List.find? (fun p => p.1 = k) m with
  | some p => some p.2
  | none => none

/-- `conversationMap.delete(chatId)`. -/
def ConvMap.erase (m : ConvMap) (k : String) : ConvMap :=
  List.filter (fun p => ¬ p.1 = k) m

/-- `conversationMap.set(chatId, id)` (overwrites the previous binding). -/
def ConvMap.set (m : ConvMap) (k v : String) : ConvMap :=
  (k, v) :: ConvMap.erase m k

/-! ## Reasoning client: `queryApollo` -/

/-- One settled response of the Kibana `/api/agent_builder/converse`
endpoint, as observed by `queryApollo` (`res.ok`, `res.status`,
`res.text()` / `res.json()` fields). -/
inductive ConverseResp where
  /-- `res.ok`; carries `data.conversation_id`, `data.response?.message`,
  the number of `tool_call` steps, and `data.time_to_last_token`. -/
  | ok (conversationId : Option String) (message : Option String)
       (toolCalls : Nat) (timeToLastToken : Option Nat)
  /-- `!res.ok`; carries `res.status` and the error body text. -/
  | fail (status : Nat) (body : String)

/-- Outcome of a `queryApollo` call: the `conversation_id` attached to each
request actually sent (in order), the returned reply or thrown error, and
the final state of the conversation map. -/
structure QueryOutcome where
  sent : List (Option String)
  result : Except String String
  finalMap : ConvMap

/-- The canned introductory reply returned for empty prompts (source text
reproduced byte-for-byte, including its mojibake sequences). -/
def introReply : String :=
  "Hi! I" ++ apos ++ "m Apollo, your AI SRE agent. Ask me anything about your production services â€” for example:\nâ€¢ \"What" ++ apos ++ "s the error rate on checkout-api?\"\nâ€¢ \"Run a full production scan\"\nâ€¢ \"Search past incidents for payment timeouts\""

/-- `(n / 1000).toFixed(0)` for a millisecond count: rounding to the
nearest integer (halves away from zero). -/
def toFixed0ms (n : Nat) : Nat := (n + 500) / 1000

/-- Reply text assembled on the success path:
`data.response?.message || "Investigation complete."` plus the optional
`"\n\n<tools> tools | <seconds>s"` line (emitted only when
`data.time_to_last_token` is truthy, i.e. present and nonzero). -/
def renderReply (message : Option String) (toolCalls : Nat)
    (timeToLastToken : Option Nat) : String :=
  let base :=
    match message with
    | some m => if m = "" then ("Investigation complete.") else m
    | none => "Investigation complete."
  let timing :=
    match timeToLastToken with
    | some t =>
        if t = 0 then ("")
        else ("\n\n") ++ toString toolCalls ++ " tools | " ++ toString (toFixed0ms t) ++ "s"
    | none => ""
  base ++ timing

/-- The loop body of `queryApollo` for a nonempty sanitized prompt.  Each
upstream request consumes the head of `resps`; the "conversation not
found" retry is the recursive call on the tail (the JS source re-enters
`queryApollo(userMessage, chatId)`, whose trim/empty check yields the same
nonempty sanitized input again).  An empty `resps` models an unreachable
state (the upstream always settles each request) and reports an error. -/
def queryApolloLoop (userMessage chatId : String) (m : ConvMap) :
    List ConverseResp → QueryOutcome
  | [] => ⟨[], .error ("no upstream response modelled"), m⟩
  | r :: rest =>
    let existingConvId := ConvMap.get? m chatId
    match r with
    | .ok convId msg toolCalls ttlt =>
        let m' :=
          match convId with
          | some c => if c = "" then m else ConvMap.set m chatId c
          | none => m
        ⟨[existingConvId], .ok (renderReply msg toolCalls ttlt), m'⟩
    | .fail status body =>
        if jsIncludes body ("not found") && existingConvId.isSome then
          let out := queryApolloLoop userMessage chatId (ConvMap.erase m chatId) rest
          ⟨existingConvId :: out.sent, out.result, out.finalMap⟩
        else
          ⟨[existingConvId],
           .error ("Apollo API (" ++ toString status ++ "): " ++ jsTake body 200),
           m⟩

/-- `queryApollo(userMessage, chatId)`: empty or whitespace-only prompts
short-circuit to the canned intro without contacting the upstream;
otherwise the request loop runs against the sequence of upstream
responses. -/
def queryApollo (userMessage chatId : String) (m : ConvMap)
    (resps : List ConverseResp) : QueryOutcome :=
  let sanitizedInput := jsTrim userMessage
  if sanitizedInput = "" then ⟨[], .ok introReply, m⟩
  else queryApolloLoop userMessage chatId m resps

/-! ## Chunker: `splitMessage` -/

/-- `remaining.lastIndexOf("\n", fromIdx)`: the largest index `i ≤ fromIdx`
with `remaining[i] = '\n'`, if any. -/
def lastNlIdx (l : List Char) (fromIdx : Nat) : Option Nat :=
  ((List.range (min (fromIdx + 1) l.length)).filter
    (fun i => l.getD i ' ' = '\n')).getLast?

/-- The split index chosen by one loop iteration:
`let splitIdx = remaining.lastIndexOf("\n", maxLen);
 if (splitIdx < maxLen * 0.3) splitIdx = maxLen;`
The float comparison `splitIdx < maxLen * 0.3` agrees with the exact
rational comparison `10 * splitIdx < 3 * maxLen` for every `maxLen` in
range (the double rounding error of `maxLen * 0.3` is far smaller than
the distance from any integer), and `-1 < maxLen * 0.3` always holds for
`maxLen ≥ 0`, so the not-found case also picks `maxLen`. -/
def chooseSplitIdx (maxLen : Nat) (l : List Char) : Nat :=
  match lastNlIdx l maxLen with
  | some i => if 10 * i < 3 * maxLen then maxLen else i
  | none => maxLen

/-- `remaining.substring(splitIdx).replace(/^\n/, "")`: drop one leading
line break if present. -/
def stripLeadNl (l : List Char) : List Char :=
  if l.head? = some '\n' then l.tail else l

/-- The `while (remaining.length > 0)` loop of `splitMessage`, with an
explicit fuel argument.  With `fuel ≥ remaining.length` and `maxLen ≥ 1`
the fuel never runs out (each iteration removes at least one character);
for `maxLen = 0` the JavaScript loop genuinely diverges on most inputs,
which the fuel model renders as an empty remainder of chunks. -/
def splitLoop (maxLen : Nat) : Nat → List Char → List (List Char)
  | 0, _ => []
  | fuel + 1, remaining =>
    if remaining.length = 0 then []
    else if remaining.length ≤ maxLen then [remaining]
    else
      let splitIdx := chooseSplitIdx maxLen remaining
      remaining.take splitIdx ::
        splitLoop maxLen fuel (stripLeadNl (remaining.drop splitIdx))

/-- `splitMessage(text, maxLen)`. -/
def splitMessage (text : List Char) (maxLen : Nat) : List (List Char) :=
  if text.length ≤ maxLen then [text]
  else splitLoop maxLen text.length text

/-- Re-insertion of removed separators: interleave chunks with one
separator per boundary (`rejoin [c] [] = c`,
`rejoin (c :: cs) (s :: ss) = c ++ s ++ rejoin cs ss`). -/
def rejoin : List (List Char) → List (List Char) → List Char
  | [], _ => []
  | c :: _, [] => c
  | c :: cs, s :: ss => c ++ s ++ rejoin cs ss

/-- The round-trip property claimed for the chunker: some way of
re-inserting one removed line break (or nothing) at each boundary
reconstructs the original text. -/
def ChunkRoundTrip (text : List Char) (maxLen : Nat) : Prop :=
  ∃ seps : List (List Char),
    seps.length + 1 = (splitMessage text maxLen).length ∧
    (∀ s ∈ seps, s = [] ∨ s = ['\n']) ∧
    rejoin (splitMessage text maxLen) seps = text

/-! ## Formatter: `mdToTelegramHtml`

Each `result.replace(/…/g…, …)` line is modelled as one left-to-right
scan (`globalReplaceSt`): at every position the pass either matches
(consuming `len ≥ 1` characters of the source and emitting `rep`) or
advances one character.  This is exactly the semantics of a global
regex replace whose pattern cannot match the empty string.  The scanner
state carries what the corresponding regex needs to look at besides the
current suffix: nothing (`Unit`), whether the position is a line start
for `/m`-anchored patterns (`Bool`), or the previous source character
for look-behind (`Option Char`). -/

/-- One successful match: replacement text, number of source characters
consumed (`≥ 1` for all patterns below), and the scanner state holding
after the match. -/
structure MatchStep (σ : Type) where
  rep : List Char
  len : Nat
  st : σ

/-- Global regex replacement driver, with an explicit fuel argument for
structural recursion (each step consumes at least one source character,
so `fuel = l.length` always suffices; on exhausted fuel the rest is
emitted unchanged, which never happens at the call sites).  A `len = 0`
match is treated as no match so the driver is total without side
conditions (no pattern below produces one). -/
def globalReplaceF {σ : Type} (tryM : σ → List Char → Option (MatchStep σ))
    (upd : σ → Char → σ) : Nat → σ → List Char → List Char
  | 0, _, l => l
  | _, _, [] => []
  | fuel + 1, s, c :: t =>
    match tryM s (c :: t) with
    | some m =>
      if m.len = 0 then c :: globalReplaceF tryM upd fuel (upd s c) t
      else m.rep ++ globalReplaceF tryM upd fuel m.st ((c :: t).drop m.len)
    | none => c :: globalReplaceF tryM upd fuel (upd s c) t

/-- Global regex replacement: one left-to-right scan over the input. -/
def globalReplaceSt {σ : Type} (tryM : σ → List Char → Option (MatchStep σ))
    (upd : σ → Char → σ) (s : σ) (l : List Char) : List Char :=
  globalReplaceF tryM upd l.length s l

/-- Line-start tracking for `/m`-anchored patterns: after consuming `c`
the scanner is at a line start iff `c` was a newline. -/
def updLineStart : Bool → Char → Bool := fun _ c => decide (c = '\n')

/-- Previous-character tracking for look-behind patterns. -/
def updPrev : Option Char → Char → Option Char := fun _ c => some c

/-- Search for the two-character closing delimiter `d₁ d₂` of a lazy
group `(.+?)`: the minimal nonempty newline-free prefix `content` with
`l = content ++ [d₁, d₂] ++ rest`. -/
def findCloser2 (d₁ d₂ : Char) : List Char → Option (List Char × List Char)
  | [] => none
  | c :: t =>
    if c = '\n' then none
    else if t.take 2 = [d₁, d₂] then some ([c], t.drop 2)
    else
      match findCloser2 d₁ d₂ t with
      | some (content, rest) => some (c :: content, rest)
      | none => none

/-- Search for a one-character closing delimiter `d` of a lazy group
restricted to characters satisfying `ok` (e.g. `([^*\n]+?)`): the minimal
nonempty prefix of `ok` characters followed by `d`. -/
def findCloser1 (d : Char) (ok : Char → Bool) : List Char → Option (List Char × List Char)
  | [] => none
  | c :: t =>
    if ¬ ok c then none
    else if t.take 1 = [d] then some ([c], t.drop 1)
    else
      match findCloser1 d ok t with
      | some (content, rest) => some (c :: content, rest)
      | none => none

/-- First occurrence of a triple backtick: splits `l` as
`content ++ [btick, btick, btick] ++ rest` with the shortest `content`
(which may be empty, matching `([\s\S]*?)`). -/
def findTripleTick : List Char → Option (List Char × List Char)
  | [] => none
  | c :: t =>
    if c = btick ∧ t.take 2 = [btick, btick] then some ([], t.drop 2)
    else
      match findTripleTick t with
      | some (content, rest) => some (c :: content, rest)
      | none => none

/-- `/^#{1,6}\s+(.+)$/gm` → `"<b>$1</b>"`.  At a line start: one to six
`#`, a nonempty whitespace run (greedy, may cross line breaks via `\s`),
then a nonempty newline-free content run ending at a line end.  When the
whitespace run extends to a line end the engine backtracks, leaving the
maximal newline-free whitespace suffix as content (provided at least one
whitespace character remains for `\s+`). -/
def tryHeaderFull (l : List Char) : Option (MatchStep Bool) :=
  let hashes := l.takeWhile (fun c => c = '#')
  if 1 ≤ hashes.length ∧ hashes.length ≤ 6 then
    let afterHash := l.drop hashes.length
    let wsRun := afterHash.takeWhile jsWs
    if wsRun.length = 0 then none
    else
      let rest := afterHash.drop wsRun.length
      let atLineEnd := rest.head? = none ∨ rest.head? = some '\n'
      if atLineEnd then
        let wsSuffix := (wsRun.reverse.takeWhile (fun d => ¬ d = '\n')).reverse
        let content := if wsSuffix.length = wsRun.length then wsRun.drop 1 else wsSuffix
        if content.length = 0 then none
        else
          some ⟨("<b>").data ++ content ++ ("</b>").data,
                hashes.length + wsRun.length, false⟩
      else
        let content := rest.takeWhile (fun d => ¬ d = '\n')
        some ⟨("<b>").data ++ content ++ ("</b>").data,
              hashes.length + wsRun.length + content.length, false⟩
  else none

/-- `/\*\*(.+?)\*\*/g` → `"<b>$1</b>"`. -/
def tryBoldStar (_ : Unit) (l : List Char) : Option (MatchStep Unit) :=
  if l.take 2 = ['*', '*'] then
    match findCloser2 '*' '*' (l.drop 2) with
    | some (content, _) =>
        some ⟨("<b>").data ++ content ++ ("</b>").data, 2 + content.length + 2, ()⟩
    | none => none
  else none

/-- `/__(.+?)__/g` → `"<b>$1</b>"`. -/
def tryBoldUnder (_ : Unit) (l : List Char) : Option (MatchStep Unit) :=
  if l.take 2 = ['_', '_'] then
    match findCloser2 '_' '_' (l.drop 2) with
    | some (content, _) =>
        some ⟨("<b>").data ++ content ++ ("</b>").data, 2 + content.length + 2, ()⟩
    | none => none
  else none

/-- `/(?<!\w)\*([^*\n]+?)\*(?!\w)/g` → `"<i>$1</i>"`; the state is the
previous source character for the look-behind. -/
def tryItalicStar (prev : Option Char) (l : List Char) : Option (MatchStep (Option Char)) :=
  if (match prev with | some p => jsWord p | none => false) then none
  else if l.take 1 = ['*'] then
    match findCloser1 '*' (fun c => ¬ c = '*' ∧ ¬ c = '\n') (l.drop 1) with
    | some (content, rest) =>
        if (match rest.head? with | some n => jsWord n | none => false) then none
        else some ⟨("<i>").data ++ content ++ ("</i>").data, 1 + content.length + 1, some '*'⟩
    | none => none
  else none

/-- `/(?<!\w)_([^_\n]+?)_(?!\w)/g` → `"<i>$1</i>"`. -/
def tryItalicUnder (prev : Option Char) (l : List Char) : Option (MatchStep (Option Char)) :=
  if (match prev with | some p => jsWord p | none => false) then none
  else if l.take 1 = ['_'] then
    match findCloser1 '_' (fun c => ¬ c = '_' ∧ ¬ c = '\n') (l.drop 1) with
    | some (content, rest) =>
        if (match rest.head? with | some n => jsWord n | none => false) then none
        else some ⟨("<i>").data ++ content ++ ("</i>").data, 1 + content.length + 1, some '_'⟩
    | none => none
  else none

/-- ``/`([^`\n]+?)`/g`` → `"<code>$1</code>"`. -/
def tryInlineCode (_ : Unit) (l : List Char) : Option (MatchStep Unit) :=
  if l.take 1 = [btick] then
    match findCloser1 btick (fun c => ¬ c = btick ∧ ¬ c = '\n') (l.drop 1) with
    | some (content, _) =>
        some ⟨("<code>").data ++ content ++ ("</code>").data, 1 + content.length + 1, ()⟩
    | none => none
  else none

/-- ```` /```[\w]*\n?([\s\S]*?)```/g ```` → `"<pre>$1</pre>"`. -/
def tryFence (_ : Unit) (l : List Char) : Option (MatchStep Unit) :=
  if l.take 3 = [btick, btick, btick] then
    let afterTicks := l.drop 3
    let wordRun := afterTicks.takeWhile jsWord
    let afterWord := afterTicks.drop wordRun.length
    let nlTaken := afterWord.head? = some '\n'
    let searchIn := if nlTaken then afterWord.tail else afterWord
    match findTripleTick searchIn with
    | some (content, _) =>
        some ⟨("<pre>").data ++ content ++ ("</pre>").data,
              3 + wordRun.length + (if nlTaken then 1 else 0) + content.length + 3, ()⟩
    | none => none
  else none

/-- `/~~(.+?)~~/g` → `"<s>$1</s>"`. -/
def tryStrike (_ : Unit) (l : List Char) : Option (MatchStep Unit) :=
  if l.take 2 = ['~', '~'] then
    match findCloser2 '~' '~' (l.drop 2) with
    | some (content, _) =>
        some ⟨("<s>").data ++ content ++ ("</s>").data, 2 + content.length + 2, ()⟩
    | none => none
  else none

/-- `/\[([^\]]+)\]\(([^)]+)\)/g` → `'<a href="$2">$1</a>'`.  Both groups
are maximal runs of their allowed characters (the greedy classes cannot
backtrack across their terminators). -/
def tryLink (_ : Unit) (l : List Char) : Option (MatchStep Unit) :=
  if l.take 1 = ['['] then
    let txt := (l.drop 1).takeWhile (fun c => ¬ c = ']')
    if txt.length = 0 then none
    else
      let rest := (l.drop 1).drop txt.length
      if rest.take 2 = [']', '('] then
        let url := (rest.drop 2).takeWhile (fun c => ¬ c = ')')
        if url.length = 0 then none
        else if ((rest.drop 2).drop url.length).take 1 = [')'] then
          some ⟨("<a href=\"").data ++ url ++ ("\">").data ++ txt ++ ("</a>").data,
                1 + txt.length + 2 + url.length + 1, ()⟩
        else none
      else none
  else none

/-- `/^[-*]{3,}$/gm` → `""`: a line made of three or more `-`/`*`. -/
def tryHr (l : List Char) : Option (MatchStep Bool) :=
  let run := l.takeWhile (fun c => c = '-' ∨ c = '*')
  let nxt := (l.drop run.length).head?
  if 3 ≤ run.length ∧ (nxt = none ∨ nxt = some '\n') then some ⟨[], run.length, false⟩
  else none

/-- `/^[\s]*[-*+]\s+/gm` → `"  â€¢ "` (the bullet replacement text is the
source file's literal bytes).  The leading whitespace run may cross line
breaks; the trailing `\s+` is greedy and nonempty. -/
def tryBullet (l : List Char) : Option (MatchStep Bool) :=
  let ws1 := l.takeWhile jsWs
  let r := l.drop ws1.length
  match r.head? with
  | some c =>
    if c = '-' ∨ c = '*' ∨ c = '+' then
      let ws2 := (r.drop 1).takeWhile jsWs
      if ws2.length = 0 then none
      else some ⟨("  â€¢ ").data, ws1.length + 1 + ws2.length,
                 decide (ws2.getLast? = some '\n')⟩
    else none
  | none => none

/-- `/^[\s]*\d+\.\s+/gm` → `"  "`. -/
def tryNumbered (l : List Char) : Option (MatchStep Bool) :=
  let ws1 := l.takeWhile jsWs
  let r := l.drop ws1.length
  let ds := r.takeWhile jsDigit
  if ds.length = 0 then none
  else if (r.drop ds.length).head? = some '.' then
    let ws2 := ((r.drop ds.length).drop 1).takeWhile jsWs
    if ws2.length = 0 then none
    else some ⟨("  ").data, ws1.length + ds.length + 1 + ws2.length,
               decide (ws2.getLast? = some '\n')⟩
  else none

/-- `/\n{3,}/g` → `"\n\n"`. -/
def tryCollapse (_ : Unit) (l : List Char) : Option (MatchStep Unit) :=
  if l.take 3 = ['\n', '\n', '\n'] then
    some ⟨['\n', '\n'], (l.takeWhile (fun c => c = '\n')).length, ()⟩
  else none

/-- Lift a line-anchored matcher to a stateful pass: a match may only
start at a line start. -/
def atLineStart (tryA : List Char → Option (MatchStep Bool)) :
    Bool → List Char → Option (MatchStep Bool) :=
  fun s l => if s then tryA l else none

/-- The thirteen replacement passes of `mdToTelegramHtml`, in source
order, followed by the final `.trim()`; `if (!text) return ""` is the
empty-input guard. -/
def mdToTelegramHtml (text : List Char) : List Char :=
  if text.length = 0 then []
  else
    let r1 := globalReplaceSt (atLineStart tryHeaderFull) updLineStart true text
    let r2 := globalReplaceSt tryBoldStar (fun _ _ => ()) () r1
    let r3 := globalReplaceSt tryBoldUnder (fun _ _ => ()) () r2
    let r4 := globalReplaceSt tryItalicStar updPrev none r3
    let r5 := globalReplaceSt tryItalicUnder updPrev none r4
    let r6 := globalReplaceSt tryInlineCode (fun _ _ => ()) () r5
    let r7 := globalReplaceSt tryFence (fun _ _ => ()) () r6
    let r8 := globalReplaceSt tryStrike (fun _ _ => ()) () r7
    let r9 := globalReplaceSt tryLink (fun _ _ => ()) () r8
    let r10 := globalReplaceSt (atLineStart tryHr) updLineStart true r9
    let r11 := globalReplaceSt (atLineStart tryBullet) updLineStart true r10
    let r12 := globalReplaceSt (atLineStart tryNumbered) updLineStart true r11
    let r13 := globalReplaceSt tryCollapse (fun _ _ => ()) () r12
    jsTrimL r13

/-! ## Telegram helper: `sendTelegram` -/

/-- `safeText.replace(/<[^>]+>/g, "")`: strip HTML-like tags.  A match is
`<`, a nonempty run of non-`>` characters, then `>`. -/
def tryTag (_ : Unit) (l : List Char) : Option (MatchStep Unit) :=
  let content := (l.drop 1).takeWhile (fun c => ¬ c = '>')
  if l.take 1 = ['<'] ∧ ¬ content.length = 0 ∧
      ((l.drop 1).drop content.length).take 1 = ['>'] then
    some ⟨[], 1 + content.length + 1, ()⟩
  else none

/-- `text.replace(/<[^>]+>/g, "")`. -/
def stripTags (l : List Char) : List Char :=
  globalReplaceSt tryTag (fun _ _ => ()) () l

/-- The error-body marker that triggers the plain-text retry
(`err.includes("can't parse entities")`). -/
def parseEntitiesMsg : String := "can" ++ apos ++ "t parse entities"

/-- Truncation applied before sending:
`text.length > 4096 ? text.substring(0, 4090) + "\n..." : text`. -/
def tgSafeText (text : List Char) : List Char :=
  if 4096 < text.length then text.take 4090 ++ ['\n', '.', '.', '.'] else text

/-- One HTTP POST to the Telegram `sendMessage` endpoint: the `chat_id`
and `text` fields of the request body, and whether `parse_mode: "HTML"`
was included. -/
structure TgRequest where
  chatId : String
  text : List Char
  htmlMode : Bool
deriving DecidableEq

/-- The object returned by `sendTelegram`. -/
structure TgResult where
  success : Bool
  error : Option String

/-- `sendTelegram(chatId, text)`: the list of HTTP requests issued and
the returned result.  `tokenSet` models `TELEGRAM_BOT_TOKEN` being
nonempty, `defaultChat` models `TELEGRAM_CHAT_ID`; `firstOk` is
`res.ok` of the first request, `errBody` its error body, and `retryOk`
is `plainRes.ok` of the retry without formatting. -/
def sendTelegramM (tokenSet : Bool) (defaultChat chatId : String)
    (text : List Char) (firstOk : Bool) (errBody : String) (retryOk : Bool) :
    List TgRequest × TgResult :=
  if ¬ tokenSet then ([], ⟨false, some ("Bot not configured")⟩)
  else
    let safeText := tgSafeText text
    let effChat := if chatId = "" then defaultChat else chatId
    let req1 : TgRequest := ⟨effChat, safeText, true⟩
    if firstOk then ([req1], ⟨true, none⟩)
    else if jsIncludes errBody parseEntitiesMsg then
      let req2 : TgRequest := ⟨effChat, stripTags safeText, false⟩
      if retryOk then ([req1, req2], ⟨true, none⟩)
      else ([req1, req2], ⟨false, some errBody⟩)
    else ([req1], ⟨false, some errBody⟩)

/-! ## Scheduler: `autonomousScan` -/

/-- Does `b` occur after `a` with no line break between them?  This is
`a.*b` for a dotall-free JavaScript regex: `a` anywhere, then `b` on the
same line (checked on the remainder up to the next newline, since `b`
itself contains no newline). -/
def segTest (a b : List Char) : List Char → Bool
  | [] => false
  | l@(_ :: t) =>
    (a.isPrefixOf l && decide (b <:+: ((l.drop a.length).takeWhile (fun c => ¬ c = '\n')))) ||
    segTest a b t

/-- `/all.*normal|no.*anomal|healthy|no.*issue/i.test(rawResponse)`. -/
def scanIsHealthy (raw : List Char) : Bool :=
  let l := raw.map lowerAscii
  segTest ("all").data ("normal").data l ||
  segTest ("no").data ("anomal").data l ||
  jsIncludesL l ("healthy").data ||
  segTest ("no").data ("issue").data l

/-- The alert prefix `"\u{1F6E1} <b>Apollo Scheduled Scan</b>\n\n"`. -/
def scanHeader : List Char :=
  Char.ofNat 0x1F6E1 :: (" <b>Apollo Scheduled Scan</b>\n\n").data

/-- Outcome of one scheduled scan cycle, given the reasoning engine's
reply `raw`: the texts passed to `sendTelegram` (one per outbound alert)
and the HTTP requests those sends issued. -/
structure ScanOutcome where
  alerts : List (List Char)
  requests : List TgRequest

/-- `autonomousScan()` after `queryApollo` has returned `raw`:
classify the reply, and when unhealthy and Telegram is configured send
one alert built from the formatted reply truncated to 3800 characters. -/
def autonomousScan (raw : List Char) (tokenSet chatIdSet : Bool)
    (defaultChat : String) (firstOk : Bool) (errBody : String) (retryOk : Bool) :
    ScanOutcome :=
  let formatted := mdToTelegramHtml raw
  let isHealthy := scanIsHealthy raw
  if ¬ isHealthy ∧ tokenSet ∧ chatIdSet then
    let msg := scanHeader ++ formatted.take 3800
    let sent := sendTelegramM tokenSet defaultChat defaultChat msg firstOk errBody retryOk
    ⟨[msg], sent.1⟩
  else ⟨[], []⟩

/-! ## Health verification: `runHealthCheck` -/

/-- One row of the current-window ES|QL aggregation (fields may be
absent when the query returned no rows: `recentRows[0] || {}`). -/
structure RecentRow where
  avg_error_rate : Option ℚ
  max_error_rate : Option ℚ
  avg_latency : Option ℚ
  max_connections : Option ℤ
  sample_count : Option ℤ

/-- One row of the baseline-window ES|QL aggregation. -/
structure BaselineRow where
  baseline_error_rate : Option ℚ
  baseline_latency : Option ℚ

/-- JavaScript `x || 0` on a possibly-absent numeric field. -/
def jsOr0 (o : Option ℚ) : ℚ := o.getD 0

/-- The classification fields of the `runHealthCheck` result. -/
structure HealthResult where
  success : Bool
  service : String
  status : String
  recovered : Bool
  simulated : Bool

/-- `runHealthCheck(params)`: when Elasticsearch is not configured the
check is simulated as healthy; otherwise the first rows of the two
aggregations drive the classification
`isHealthy = (recent.max_error_rate || 0) < 2 && (recent.avg_latency || 0) < 500`
and
`isImproved = (recent.avg_error_rate || 0) < (baseline.baseline_error_rate || 0) * 1.5`. -/
def runHealthCheck (esConfigured : Bool) (service : String)
    (recentRows : List RecentRow) (baselineRows : List BaselineRow) : HealthResult :=
  if ¬ esConfigured then ⟨true, service, "HEALTHY", false, true⟩
  else
    let recent := recentRows.head?
    let baseline := baselineRows.head?
    let maxErr := jsOr0 (match recent with | some r => r.max_error_rate | none => none)
    let avgErr := jsOr0 (match recent with | some r => r.avg_error_rate | none => none)
    let avgLat := jsOr0 (match recent with | some r => r.avg_latency | none => none)
    let baseErr := jsOr0 (match baseline with | some b => b.baseline_error_rate | none => none)
    let isHealthy := maxErr < 2 ∧ avgLat < 500
    let isImproved := avgErr < baseErr * (3 / 2)
    ⟨true, service, if isHealthy then ("HEALTHY") else ("DEGRADED"),
     decide isImproved, false⟩

/-! ## Remediation: `executeRollback` -/

/-- Gateway configuration flags relevant to the action handlers. -/
structure Cfg where
  elastic : Bool
  slackWebhook : Bool
  tgToken : Bool
  tgChat : String

/-- Observable side effects of an action handler.  `esDelete` is never
produced by any handler; it is included so that "the primary effect is
not rolled back" is a statement with content. -/
inductive Effect where
  | esIndex (index : String)
  | esDelete (index : String)
  | slackPost
  | tgPost (r : TgRequest)
deriving DecidableEq

/-- The fields of the `executeRollback` result object inspected by the
claims. -/
structure RollbackResult where
  success : Bool
  deployment_id : Option String
  notifSlack : Bool
  notifTelegram : Bool

/-- Trace of one `executeRollback` run: the side effects in order, the
result of the inner `sendTelegram` call (which the handler discards),
and the returned result object. -/
structure RollbackRun where
  effects : List Effect
  tgResult : TgResult
  result : RollbackResult

/-- `executeRollback(params)`: write the rollback as a deployment record
(when Elasticsearch is configured), then notify Slack (when the webhook
is configured; the response is not inspected) and Telegram (always
called; its result object is discarded).  The result reports
`success: true` with `notifications: {slack: !!SLACK_WEBHOOK_URL,
telegram: !!TELEGRAM_BOT_TOKEN}`. -/
def executeRollback (cfg : Cfg) (esOk : Bool) (esId : String)
    (tgFirstOk : Bool) (tgErrBody : String) (tgRetryOk : Bool)
    (rollbackMsg : List Char) : RollbackRun :=
  let esEffects := if cfg.elastic then [Effect.esIndex ("deployments")] else []
  let deployId := if cfg.elastic ∧ esOk then some esId else none
  let slackEffects := if cfg.slackWebhook then [Effect.slackPost] else []
  let tg := sendTelegramM cfg.tgToken cfg.tgChat cfg.tgChat rollbackMsg tgFirstOk tgErrBody tgRetryOk
  ⟨esEffects ++ slackEffects ++ tg.1.map Effect.tgPost,
   tg.2,
   ⟨true, deployId, cfg.slackWebhook, cfg.tgToken⟩⟩

/-! ## Tool dispatcher: the `/mcp` endpoint -/

/-- JSON-like values for modelling result objects. -/
inductive JVal where
  | s (v : String)
  | b (v : Bool)
  | n (v : Int)
  | obj (fields : List (String × JVal))
  | arr (xs : List JVal)
  | null

/-- Field lookup in a JSON object value. -/
def JVal.lookup : JVal → String → Option JVal
  | .obj fields, k =>
      (match List.find? (fun p => p.1 = k) fields with
       | some p => some p.2
       | none => none)
  | _, _ => none

/-- The names of the `TOOLS` catalog, in declaration order; these are
also exactly the cases of the `tools/call` dispatch switch. -/
def toolNames : List String :=
  ["send_telegram_alert", "create_incident_record", "recommend_rollback",
   "send_slack_notification", "execute_rollback", "run_health_check",
   "create_jira_ticket", "create_pagerduty_incident", "generate_postmortem",
   "update_status_page", "create_github_issue", "get_service_health",
   "get_recent_incidents", "get_recent_deployments", "search_error_logs",
   "ask_apollo"]

/-- Outcome of awaiting one handler: either its returned result object or
the message of the error it threw. -/
def HandlerOutcome : Type := Except String JVal

/-- The `try { switch (name) { … } } catch (err) { result = { error:
err.message } }` wrapper around one handler invocation. -/
def catchWrap (o : HandlerOutcome) : JVal :=
  match o with
  | .ok r => r
  | .error msg => .obj [("error", .s msg)]

/-- The `tools/call` dispatch switch: look up the named handler, run it
under the catch, or produce the unknown-tool result.  `run` gives the
outcome of each (asynchronous, effectful) handler; the second component
records which handler was invoked (`none` for the default arm, which
performs no side effects). -/
def toolsCallResult (run : String → HandlerOutcome) (name : String) :
    JVal × Option String :=
  if name = "send_telegram_alert" then (catchWrap (run name), some name)
  else if name = "create_incident_record" then (catchWrap (run name), some name)
  else if name = "recommend_rollback" then (catchWrap (run name), some name)
  else if name = "send_slack_notification" then (catchWrap (run name), some name)
  else if name = "execute_rollback" then (catchWrap (run name), some name)
  else if name = "run_health_check" then (catchWrap (run name), some name)
  else if name = "create_jira_ticket" then (catchWrap (run name), some name)
  else if name = "create_pagerduty_incident" then (catchWrap (run name), some name)
  else if name = "generate_postmortem" then (catchWrap (run name), some name)
  else if name = "update_status_page" then (catchWrap (run name), some name)
  else if name = "create_github_issue" then (catchWrap (run name), some name)
  else if name = "get_service_health" then (catchWrap (run name), some name)
  else if name = "get_recent_incidents" then (catchWrap (run name), some name)
  else if name = "get_recent_deployments" then (catchWrap (run name), some name)
  else if name = "search_error_logs" then (catchWrap (run name), some name)
  else if name = "ask_apollo" then (catchWrap (run name), some name)
  else (.obj [("error", .s ("Unknown tool: " ++ name))], none)

/-- A JSON-RPC level response of the `/mcp` endpoint: either a `result`
member or a protocol-level `error` member, each mirroring the request
id. -/
inductive RpcResp where
  | result (id : JVal) (payload : JVal)
  | rpcError (id : JVal) (code : Int) (msg : String)

/-- Wrap a tool result the way the endpoint does:
`{content: [{type: "text", text: JSON.stringify(result, null, 2)}]}`
(the serialized result is kept structured here). -/
def wrapContent (r : JVal) : JVal :=
  .obj [("content", .arr [.obj [("type", .s ("text")), ("text", r)]])]

/-- `app.post("/mcp")`: dispatch on `method`.  The `initialize` and
`tools/list` payloads are abbreviated to opaque objects (their content
is not touched by any claim); the second component records which handler
was invoked, if any. -/
def mcpPost (run : String → HandlerOutcome) (method : String) (id : JVal)
    (toolName : String) : RpcResp × Option String :=
  if method = "initialize" then
    (.result id (.obj [("protocolVersion", .s ("2025-03-26"))]), none)
  else if method = "tools/list" then
    (.result id (.obj [("tools", .arr (toolNames.map JVal.s))]), none)
  else if method = "tools/call" then
    let r := toolsCallResult run toolName
    (.result id (wrapContent r.1), r.2)
  else
    (.rpcError id (-32601) ("Method not found: " ++ method), none)

/-! ## Markup-free inputs

Formalization of "contains no markup constructs" for the formatter
claim: none of the delimiter characters of bold/italic/code/link
constructs occur, no strikethrough delimiter pair occurs, and no line
begins (after leading whitespace) with a header, bullet, numbered-list
or horizontal-rule marker. -/

/-- `q` holds at every line-start suffix strictly inside `l`. -/
def allLineStartsGo (q : List Char → Bool) : List Char → Bool
  | [] => true
  | c :: t => (if c = '\n' then q t else true) && allLineStartsGo q t

/-- `q` holds at every line-start suffix of `l` (including `l` itself). -/
def allLineStarts (q : List Char → Bool) (l : List Char) : Bool :=
  q l && allLineStartsGo q l

/-- No header marker: the line does not begin with `#`. -/
def qHeaderOk (l : List Char) : Bool := ¬ l.head? = some '#'

/-- No bullet or horizontal-rule marker: the first non-whitespace
character at or after this line start is not `-`, `*` or `+`. -/
def qBulletOk (l : List Char) : Bool :=
  match (l.dropWhile jsWs).head? with
  | some c => ¬ (c = '-' ∨ c = '*' ∨ c = '+')
  | none => true

/-- No numbered-list marker: the first non-whitespace run at or after
this line start is not a digit run followed by a dot. -/
def qNumberedOk (l : List Char) : Bool :=
  let r := l.dropWhile jsWs
  let ds := r.takeWhile jsDigit
  ds.length = 0 || ¬ (r.drop ds.length).head? = some '.'

/-- "Contains no markup constructs" (the hypothesis of the formatter
identity claim). -/
def noMarkupText (l : List Char) : Bool :=
  (¬ '*' ∈ l) && (¬ '_' ∈ l) && (¬ btick ∈ l) &&
  (¬ '[' ∈ l) && (¬ jsIncludesL l ['~', '~']) &&
  allLineStarts qHeaderOk l && allLineStarts qBulletOk l &&
  allLineStarts qNumberedOk l

/-- No run of three or more consecutive line breaks (the additional
condition needed for the identity claim, forced by the `\n{3,}`
collapse pass). -/
def noTripleNl (l : List Char) : Bool := ¬ jsIncludesL l ['\n', '\n', '\n']

/-! Theorems: generic facts about the replacement scanner. -/

theorem globalReplaceF_id {σ : Type} (tryM : σ → List Char → Option (MatchStep σ))
    (upd : σ → Char → σ) (Inv : σ → List Char → Prop)
    (hnone : ∀ s c t, Inv s (c :: t) → tryM s (c :: t) = none)
    (hstep : ∀ s c t, Inv s (c :: t) → Inv (upd s c) t) :
    ∀ fuel l s, Inv s l → globalReplaceF tryM upd fuel s l = l := by
  intro fuel
  induction fuel with
  | zero => intro l s _; cases l <;> rfl
  | succ n ih =>
    intro l s h
    match l with
    | [] => rfl
    | c :: t =>
      rw [globalReplaceF, hnone s c t h]
      rw [ih t (upd s c) (hstep s c t h)]

theorem globalReplaceSt_id {σ : Type} (tryM : σ → List Char → Option (MatchStep σ))
    (upd : σ → Char → σ) (Inv : σ → List Char → Prop)
    (hnone : ∀ s c t, Inv s (c :: t) → tryM s (c :: t) = none)
    (hstep : ∀ s c t, Inv s (c :: t) → Inv (upd s c) t) :
    ∀ l s, Inv s l → globalReplaceSt tryM upd s l = l := by
  intro l s h
  exact globalReplaceF_id tryM upd Inv hnone hstep l.length l s h

theorem globalReplaceF_length_le {σ : Type} (tryM : σ → List Char → Option (MatchStep σ))
    (upd : σ → Char → σ)
    (hrep : ∀ s c t m, tryM s (c :: t) = some m → m.rep.length ≤ m.len)
    (hfit : ∀ s c t m, tryM s (c :: t) = some m → m.len ≤ (c :: t).length) :
    ∀ fuel l s, (globalReplaceF tryM upd fuel s l).length ≤ l.length := by
  intro fuel
  induction fuel with
  | zero => intro l s; cases l <;> exact le_rfl
  | succ n ih =>
    intro l s
    match l with
    | [] => exact le_rfl
    | c :: t =>
      rw [globalReplaceF]
      cases htry : tryM s (c :: t) with
      | none =>
        have := ih t (upd s c)
        dsimp only
        simp only [List.length_cons] at this ⊢
        omega
      | some m =>
        by_cases hm : m.len = 0
        · have := ih t (upd s c)
          dsimp only
          rw [if_pos hm]
          simp only [List.length_cons] at this ⊢
          omega
        · have h1 := hrep s c t m htry
          have h2 := hfit s c t m htry
          have hm1 : 1 ≤ m.len := Nat.pos_of_ne_zero hm
          have hdl2 : ((c :: t).drop m.len).length = (c :: t).length - m.len :=
            List.length_drop _ _
          have h3 := ih ((c :: t).drop m.len) m.st
          dsimp only
          rw [if_neg hm, List.length_append]
          simp only [List.length_cons] at h2 hdl2 ⊢
          omega

theorem globalReplaceSt_length_le {σ : Type} (tryM : σ → List Char → Option (MatchStep σ))
    (upd : σ → Char → σ)
    (hrep : ∀ s c t m, tryM s (c :: t) = some m → m.rep.length ≤ m.len)
    (hfit : ∀ s c t m, tryM s (c :: t) = some m → m.len ≤ (c :: t).length) :
    ∀ l s, (globalReplaceSt tryM upd s l).length ≤ l.length := by
  intro l s
  exact globalReplaceF_length_le tryM upd hrep hfit l.length l s

/-! ## Chunker lemmas -/

theorem lastNlIdx_bounds (l : List Char) (fromIdx i : Nat)
    (h : lastNlIdx l fromIdx = some i) : i ≤ fromIdx ∧ i < l.length := by
  unfold lastNlIdx at h
  have hx : i ∈ (((List.range (min (fromIdx + 1) l.length)).filter
      (fun i => l.getD i ' ' = '\n'))).getLast? := by
    rw [h]; rfl
  obtain ⟨hne, heq⟩ := List.mem_getLast?_eq_getLast hx
  have hmem : i ∈ (List.range (min (fromIdx + 1) l.length)).filter
      (fun i => l.getD i ' ' = '\n') := heq ▸ List.getLast_mem hne
  have := List.mem_range.mp (List.mem_filter.mp hmem).1
  omega

theorem chooseSplitIdx_pos (maxLen : Nat) (hm : 1 ≤ maxLen) (l : List Char) :
    1 ≤ chooseSplitIdx maxLen l := by
  unfold chooseSplitIdx
  cases h : lastNlIdx l maxLen with
  | none => simpa using hm
  | some i =>
    by_cases h10 : 10 * i < 3 * maxLen
    · simpa [h10] using hm
    · simp only [h10, if_false]
      omega

theorem chooseSplitIdx_le (maxLen : Nat) (l : List Char) :
    chooseSplitIdx maxLen l ≤ maxLen := by
  unfold chooseSplitIdx
  cases h : lastNlIdx l maxLen with
  | none => simp
  | some i =>
    by_cases h10 : 10 * i < 3 * maxLen
    · simp [h10]
    · simp only [h10, if_false]
      exact (lastNlIdx_bounds l maxLen i h).1

theorem stripLeadNl_length_le (l : List Char) :
    (stripLeadNl l).length ≤ l.length := by
  unfold stripLeadNl
  by_cases h : l.head? = some '\n'
  · simp only [h, if_true]
    cases l <;> simp
  · simp [h]

theorem stripLeadNl_sublist (l : List Char) : (stripLeadNl l).Sublist l := by
  unfold stripLeadNl
  by_cases h : l.head? = some '\n'
  · simp only [h, if_true]
    exact List.tail_sublist l
  · simp [h]

theorem stripLeadNl_sep (l : List Char) :
    (if l.head? = some '\n' then ['\n'] else []) ++ stripLeadNl l = l := by
  unfold stripLeadNl
  by_cases h : l.head? = some '\n'
  · cases l with
    | nil => simp at h
    | cons c t =>
      simp only [List.head?_cons, Option.some.injEq] at h
      subst h
      simp
  · simp [h]

theorem splitLoop_chunk_le (maxLen : Nat) :
    ∀ fuel rem c, c ∈ splitLoop maxLen fuel rem → c.length ≤ maxLen := by
  intro fuel
  induction fuel with
  | zero => intro rem c hc; simp [splitLoop] at hc
  | succ n ih =>
    intro rem c hc
    rw [splitLoop] at hc
    by_cases h0 : rem.length = 0
    · simp [h0] at hc
    · by_cases hle : rem.length ≤ maxLen
      · simp only [h0, if_false, hle, if_true, List.mem_singleton] at hc
        subst hc
        exact hle
      · simp only [h0, if_false, hle, List.mem_cons] at hc
        rcases hc with rfl | hc
        · have h1 := chooseSplitIdx_le maxLen rem
          simp only [List.length_take]
          omega
        · exact ih _ c hc

theorem splitLoop_join_sublist (maxLen : Nat) :
    ∀ fuel rem, (splitLoop maxLen fuel rem).flatten.Sublist rem := by
  intro fuel
  induction fuel with
  | zero => intro rem; simp [splitLoop]
  | succ n ih =>
    intro rem
    rw [splitLoop]
    by_cases h0 : rem.length = 0
    · simp [h0]
    · by_cases hle : rem.length ≤ maxLen
      · simp [h0, hle]
      · simp only [h0, if_false, hle, if_neg, List.flatten_cons]
        have h1 := ih (stripLeadNl (rem.drop (chooseSplitIdx maxLen rem)))
        have h2 := stripLeadNl_sublist (rem.drop (chooseSplitIdx maxLen rem))
        have h3 := List.Sublist.append_left (h1.trans h2)
            (rem.take (chooseSplitIdx maxLen rem))
        simpa [List.take_append_drop] using h3

theorem getLast?_drop_of_ne_nil (l : List Char) (n : Nat) (h : l.drop n ≠ []) :
    (l.drop n).getLast? = l.getLast? := by
  conv_rhs => rw [← List.take_append_drop n l]
  rw [List.getLast?_append_of_ne_nil (List.take n l) h]

theorem splitLoop_rejoin (maxLen : Nat) (hm : 1 ≤ maxLen) :
    ∀ fuel rem, rem.length ≤ fuel → rem ≠ [] → rem.getLast? ≠ some '\n' →
      ∃ seps : List (List Char),
        seps.length + 1 = (splitLoop maxLen fuel rem).length ∧
        (∀ s ∈ seps, s = [] ∨ s = ['\n']) ∧
        rejoin (splitLoop maxLen fuel rem) seps = rem := by
  intro fuel
  induction fuel with
  | zero =>
    intro rem hf hne _
    exact absurd (List.length_eq_zero.mp (Nat.le_zero.mp hf)) hne
  | succ n ih =>
    intro rem hf hne hlast
    have h0 : ¬ rem.length = 0 := by
      simpa [List.length_eq_zero] using hne
    rw [splitLoop]
    by_cases hle : rem.length ≤ maxLen
    · refine ⟨[], ?_, by simp, ?_⟩
      · rw [if_neg h0, if_pos hle]
        simp
      · rw [if_neg h0, if_pos hle]
        rfl
    · have hsi1 : 1 ≤ chooseSplitIdx maxLen rem := chooseSplitIdx_pos maxLen hm rem
      have hsile : chooseSplitIdx maxLen rem ≤ maxLen := chooseSplitIdx_le maxLen rem
      have hlt : maxLen < rem.length := Nat.lt_of_not_le hle
      have hdropne : rem.drop (chooseSplitIdx maxLen rem) ≠ [] := by
        rw [← List.length_pos, List.length_drop]
        omega
      have hdlast : (rem.drop (chooseSplitIdx maxLen rem)).getLast? = rem.getLast? :=
        getLast?_drop_of_ne_nil _ _ hdropne
      by_cases hh : (rem.drop (chooseSplitIdx maxLen rem)).head? = some '\n'
      · -- a line break is consumed at this boundary
        obtain ⟨t, hdrop⟩ : ∃ t, rem.drop (chooseSplitIdx maxLen rem) = '\n' :: t := by
          cases hd : rem.drop (chooseSplitIdx maxLen rem) with
          | nil => exact absurd hd hdropne
          | cons c t =>
            rw [hd] at hh
            simp only [List.head?_cons, Option.some.injEq] at hh
            exact ⟨t, by rw [hh]⟩
        have hstrip : stripLeadNl (rem.drop (chooseSplitIdx maxLen rem)) = t := by
          rw [hdrop]; simp [stripLeadNl]
        have htne : t ≠ [] := by
          intro he
          subst he
          rw [hdrop] at hdlast
          exact hlast hdlast.symm
        have htlast : t.getLast? ≠ some '\n' := by
          have h1 : ('\n' :: t).getLast? = t.getLast? :=
            List.getLast?_append_of_ne_nil ['\n'] htne
          rw [hdrop, h1] at hdlast
          rw [hdlast]
          exact hlast
        have htlen : t.length ≤ n := by
          have h1 : (rem.drop (chooseSplitIdx maxLen rem)).length =
              rem.length - chooseSplitIdx maxLen rem := List.length_drop _ _
          rw [hdrop] at h1
          simp only [List.length_cons] at h1
          omega
        obtain ⟨seps', hlen', hgood', hjoin'⟩ := ih t htlen htne htlast
        refine ⟨['\n'] :: seps', ?_, ?_, ?_⟩
        · rw [if_neg h0, if_neg hle]
          dsimp only
          rw [hstrip]
          simp only [List.length_cons]
          omega
        · intro s hs
          rcases List.mem_cons.mp hs with rfl | hs
          · right; rfl
          · exact hgood' s hs
        · rw [if_neg h0, if_neg hle]
          dsimp only
          rw [hstrip]
          show rejoin (rem.take (chooseSplitIdx maxLen rem) :: splitLoop maxLen n t)
              (['\n'] :: seps') = rem
          rw [rejoin, hjoin', List.append_assoc, List.singleton_append, ← hdrop]
          exact List.take_append_drop _ _
      · -- no line break at this boundary
        have hstrip : stripLeadNl (rem.drop (chooseSplitIdx maxLen rem)) =
            rem.drop (chooseSplitIdx maxLen rem) := by
          unfold stripLeadNl
          rw [if_neg hh]
        have hlen2 : (rem.drop (chooseSplitIdx maxLen rem)).length ≤ n := by
          have h1 : (rem.drop (chooseSplitIdx maxLen rem)).length =
              rem.length - chooseSplitIdx maxLen rem := List.length_drop _ _
          omega
        have hdlast2 : (rem.drop (chooseSplitIdx maxLen rem)).getLast? ≠ some '\n' := by
          rw [hdlast]; exact hlast
        obtain ⟨seps', hlen', hgood', hjoin'⟩ := ih _ hlen2 hdropne hdlast2
        refine ⟨[] :: seps', ?_, ?_, ?_⟩
        · rw [if_neg h0, if_neg hle]
          dsimp only
          rw [hstrip]
          simp only [List.length_cons]
          omega
        · intro s hs
          rcases List.mem_cons.mp hs with rfl | hs
          · left; rfl
          · exact hgood' s hs
        · rw [if_neg h0, if_neg hle]
          dsimp only
          rw [hstrip]
          show rejoin (rem.take (chooseSplitIdx maxLen rem) ::
              splitLoop maxLen n (rem.drop (chooseSplitIdx maxLen rem)))
              ([] :: seps') = rem
          rw [rejoin, hjoin']
          simp only [List.nil_append, List.append_nil]
          exact List.take_append_drop _ _

/-! ## Claim C3: chunker round trip -/

/-- C3, counterexample: for `T = "ab\n"` and `L = 2` the chunker returns
the single segment `"ab"`, consuming the final line break at a split
with no following segment, so no re-insertion of removed breaks at
segment boundaries can reconstruct `T`. -/
theorem claim_C3_counterexample : ¬ ChunkRoundTrip ("ab\n").data 2 := by
  rintro ⟨seps, hlen, _, hjoin⟩
  have hs : splitMessage ("ab\n").data 2 = [['a', 'b']] := by decide
  rw [hs] at hlen hjoin
  simp only [List.length_singleton] at hlen
  have h0 : seps = [] := List.length_eq_zero.mp (by omega)
  subst h0
  rw [show rejoin [['a', 'b']] [] = ['a', 'b'] from rfl] at hjoin
  exact absurd hjoin (by decide)

/-- C3, amended: for every positive maximum length and every text that
does not end with a line break, concatenating the segments of
`splitMessage`, re-inserting one removed line break at each boundary
where the split consumed one, reproduces the text exactly.  (A text
whose final character is a line break can lose that character when the
last split lands just before it, as the counterexample shows.) -/
theorem claim_C3_amended (text : List Char) (maxLen : Nat) (hm : 1 ≤ maxLen)
    (hlast : text.getLast? ≠ some '\n') : ChunkRoundTrip text maxLen := by
  unfold ChunkRoundTrip
  by_cases h : text.length ≤ maxLen
  · refine ⟨[], by simp [splitMessage, h], by simp, ?_⟩
    simp only [splitMessage, h, if_true]
    rfl
  · have hne : text ≠ [] := by
      intro he
      rw [he] at h
      simp at h
    have := splitLoop_rejoin maxLen hm text.length text le_rfl hne hlast
    simpa [splitMessage, h] using this

/-- C3, amended, witness at `T = "one\ntwo\nthree!"`, `L = 6`. -/
theorem claim_C3_amended_witness : ChunkRoundTrip ("one\ntwo\nthree!").data 6 :=
  claim_C3_amended ("one\ntwo\nthree!").data 6 (by decide) (by decide)

/-! ## Claim C4: chunker segment bounds and order -/

/-- C4: every segment of `splitMessage(T, L)` has length at most `L`,
the segments appear in the original order (their concatenation is a
sublist of `T`, obtained by dropping only the consumed line breaks),
and a text already within the limit is returned as the single-element
sequence `[T]`. -/
theorem claim_C4 (text : List Char) (maxLen : Nat) :
    (∀ c ∈ splitMessage text maxLen, c.length ≤ maxLen) ∧
    (splitMessage text maxLen).flatten.Sublist text ∧
    (text.length ≤ maxLen → splitMessage text maxLen = [text]) := by
  refine ⟨?_, ?_, ?_⟩
  · intro c hc
    unfold splitMessage at hc
    by_cases h : text.length ≤ maxLen
    · simp only [h, if_true, List.mem_singleton] at hc
      subst hc
      exact h
    · simp only [h, if_false] at hc
      exact splitLoop_chunk_le maxLen text.length text c hc
  · unfold splitMessage
    by_cases h : text.length ≤ maxLen
    · simp [h]
    · simp only [h, if_false]
      exact splitLoop_join_sublist maxLen text.length text
  · intro h
    simp [splitMessage, h]

/-- C4, witness: concrete instances of all three conjuncts at
`T = "hello world"`, `L = 4` and (for the singleton case) `L = 20`. -/
theorem claim_C4_witness :
    (∀ c ∈ splitMessage ("hello world").data 4, c.length ≤ 4) ∧
    splitMessage ("hello world").data 20 = [("hello world").data] :=
  ⟨(claim_C4 ("hello world").data 4).1,
   (claim_C4 ("hello world").data 20).2.2 (by decide)⟩

/-! ## Claim C1: stale-conversation retry -/

theorem ConvMap.get?_erase (m : ConvMap) (k : String) :
    ConvMap.get? (ConvMap.erase m k) k = none := by
  unfold ConvMap.get? ConvMap.erase
  have h : List.find? (fun p => p.1 = k) (List.filter (fun p => ¬ p.1 = k) m) = none := by
    rw [List.find?_eq_none]
    intro x hx
    have h2 := (List.mem_filter.mp hx).2
    simpa using h2
  rw [h]

set_option maxRecDepth 4000 in
/-- C1: on a first upstream failure whose body contains "not found" while
a session id is stored for the channel (and was therefore sent),
`queryApollo` deletes the stored session, retries exactly once with no
session id attached, and a failure of that retry propagates as a thrown
error with the session still deleted (no further retry occurs). -/
theorem claim_C1 (prompt chatId sid : String) (m : ConvMap) (status : Nat)
    (body : String) (r2 : ConverseResp)
    (hstored : ConvMap.get? m chatId = some sid)
    (hnf : jsIncludes body ("not found") = true)
    (hprompt : ¬ jsTrim prompt = "") :
    (queryApollo prompt chatId m (.fail status body :: r2 :: [])).sent =
      [some sid, none] ∧
    (∀ st2 b2, r2 = .fail st2 b2 →
      (∃ e, (queryApollo prompt chatId m (.fail status body :: r2 :: [])).result =
        .error e) ∧
      (queryApollo prompt chatId m (.fail status body :: r2 :: [])).finalMap =
        ConvMap.erase m chatId) := by
  have herase : ConvMap.get? (ConvMap.erase m chatId) chatId = none :=
    ConvMap.get?_erase m chatId
  refine ⟨?_, ?_⟩
  · cases r2 with
    | ok a b c d =>
      simp [queryApollo, queryApolloLoop, hprompt, hstored, hnf, herase]
    | fail st2 b2 =>
      simp [queryApollo, queryApolloLoop, hprompt, hstored, hnf, herase]
  · rintro st2 b2 rfl
    refine ⟨⟨"Apollo API (" ++ toString st2 ++ "): " ++ jsTake b2 200, ?_⟩, ?_⟩
    · simp [queryApollo, queryApolloLoop, hprompt, hstored, hnf, herase]
    · simp [queryApollo, queryApolloLoop, hprompt, hstored, hnf, herase]

/-- C1, witness: the retry behaviour at a concrete prompt, channel,
stored session and failing responses. -/
theorem claim_C1_witness :
    (queryApollo ("hi") "chat-7" [("chat-7", "conv-1")]
      (.fail 404 ("conversation not found") :: .fail 500 ("boom") :: [])).sent =
      [some ("conv-1"), none] ∧
    (∃ e, (queryApollo ("hi") "chat-7" [("chat-7", "conv-1")]
      (.fail 404 ("conversation not found") :: .fail 500 ("boom") :: [])).result = .error e) ∧
    (queryApollo ("hi") "chat-7" [("chat-7", "conv-1")]
      (.fail 404 ("conversation not found") :: .fail 500 ("boom") :: [])).finalMap =
      ConvMap.erase [("chat-7", "conv-1")] "chat-7" := by
  have h := claim_C1 ("hi") "chat-7" "conv-1" [("chat-7", "conv-1")] 404
    "conversation not found" (.fail 500 ("boom")) (by decide) (by decide) (by decide)
  exact ⟨h.1, (h.2 500 ("boom") rfl).1, (h.2 500 ("boom") rfl).2⟩

/-! ## Claim C10: Telegram message length bound -/

theorem tgSafeText_length_le (text : List Char) : (tgSafeText text).length ≤ 4096 := by
  unfold tgSafeText
  by_cases h : 4096 < text.length
  · rw [if_pos h]
    simp only [List.length_append, List.length_take, List.length_cons, List.length_nil]
    omega
  · rw [if_neg h]
    omega

theorem stripTags_length_le (l : List Char) : (stripTags l).length ≤ l.length := by
  unfold stripTags
  refine globalReplaceSt_length_le tryTag (fun _ _ => ()) ?_ ?_ l ()
  · intro s c t mm htry
    unfold tryTag at htry
    dsimp only at htry
    split_ifs at htry with h1
    · injection htry with he
      rw [← he]
      simp
  · intro s c t mm htry
    unfold tryTag at htry
    dsimp only at htry
    split_ifs at htry with h1
    · injection htry with he
      rw [← he]
      have h4 := congrArg List.length h1.2.2
      simp only [List.length_take, List.length_drop, List.length_cons,
        List.length_singleton] at h4
      simp only [List.length_cons]
      omega

theorem sendTelegramM_text_le (tokenSet : Bool) (defaultChat chatId : String)
    (text : List Char) (firstOk : Bool) (errBody : String) (retryOk : Bool) :
    ∀ r ∈ (sendTelegramM tokenSet defaultChat chatId text firstOk errBody retryOk).1,
      r.text.length ≤ 4096 := by
  intro r hr
  unfold sendTelegramM at hr
  have hsafe := tgSafeText_length_le text
  have hstrip := (stripTags_length_le (tgSafeText text)).trans hsafe
  by_cases htok : tokenSet = true
  · rw [if_neg (by simp [htok])] at hr
    dsimp only at hr
    by_cases h1 : firstOk = true
    · rw [if_pos h1] at hr
      simp only [List.mem_singleton] at hr
      rw [hr]
      exact hsafe
    · rw [if_neg h1] at hr
      by_cases h2 : jsIncludes errBody parseEntitiesMsg = true
      · rw [if_pos h2] at hr
        by_cases h3 : retryOk = true
        · rw [if_pos h3] at hr
          simp only [List.mem_cons, List.mem_singleton, List.not_mem_nil,
            or_false] at hr
          rcases hr with rfl | rfl
          · exact hsafe
          · exact hstrip
        · rw [if_neg h3] at hr
          simp only [List.mem_cons, List.mem_singleton, List.not_mem_nil,
            or_false] at hr
          rcases hr with rfl | rfl
          · exact hsafe
          · exact hstrip
      · rw [if_neg h2] at hr
        simp only [List.mem_singleton] at hr
        rw [hr]
        exact hsafe
  · rw [if_pos (by simp [htok])] at hr
    simp at hr

/-- C10: every request body that `sendTelegram` submits to the Telegram
`sendMessage` endpoint carries a `text` field of length at most 4096;
texts over the limit are sent as their first 4090 characters followed by
the four-character suffix `"\n..."`. -/
theorem claim_C10 (tokenSet : Bool) (defaultChat chatId : String)
    (text : List Char) (firstOk : Bool) (errBody : String) (retryOk : Bool) :
    (∀ r ∈ (sendTelegramM tokenSet defaultChat chatId text firstOk errBody retryOk).1,
      r.text.length ≤ 4096) ∧
    (4096 < text.length → tokenSet = true →
      ∃ rest, (sendTelegramM tokenSet defaultChat chatId text firstOk errBody retryOk).1 =
        ⟨if chatId = "" then defaultChat else chatId,
         text.take 4090 ++ ['\n', '.', '.', '.'], true⟩ :: rest) := by
  constructor
  · exact sendTelegramM_text_le tokenSet defaultChat chatId text firstOk errBody retryOk
  · intro hlong htok
    subst htok
    unfold sendTelegramM
    rw [if_neg (by simp)]
    dsimp only
    unfold tgSafeText
    rw [if_pos hlong]
    split_ifs <;> exact ⟨_, rfl⟩

/-- C10, witness: a 5000-character text is sent truncated to 4094
characters. -/
theorem claim_C10_witness :
    ∃ rest, (sendTelegramM true ("team-chat") "" (List.replicate 5000 'a') true ("") true).1 =
      ⟨"team-chat", (List.replicate 5000 'a').take 4090 ++ ['\n', '.', '.', '.'], true⟩ :: rest :=
  (claim_C10 true ("team-chat") "" (List.replicate 5000 'a') true ("") true).2
    (by rw [List.length_replicate]; norm_num) rfl

/-! ## Claim C2: health-check classification -/

/-- C2, counterexample: a current window whose average error rate (1%)
and average p99 latency (100ms) satisfy the claim's hypothesis, but whose
maximum error rate is 10%, is classified `DEGRADED`: the code thresholds
the window's maximum error rate, not its average. -/
theorem claim_C2_counterexample :
    jsOr0 (some 1) < 2 ∧ jsOr0 (some 100) < 500 ∧
    (runHealthCheck true ("checkout-api")
      [⟨some 1, some 10, some 100, some 3, some 5⟩] []).status = "DEGRADED" := by
  refine ⟨by norm_num [jsOr0], by norm_num [jsOr0], ?_⟩
  unfold runHealthCheck
  norm_num [jsOr0]

/-- C2, amended: a service whose current-window **maximum** error rate is
below 2% and whose average p99 latency is below 500ms is reported with
`status = "HEALTHY"` by `runHealthCheck` (when Elasticsearch is
configured; without it the check is simulated as healthy anyway). -/
theorem claim_C2_amended (service : String) (recentRows : List RecentRow)
    (baselineRows : List BaselineRow) (r : RecentRow)
    (hhead : recentRows.head? = some r)
    (hmax : jsOr0 r.max_error_rate < 2) (hlat : jsOr0 r.avg_latency < 500) :
    (runHealthCheck true service recentRows baselineRows).status = "HEALTHY" := by
  unfold runHealthCheck
  rw [if_neg (by simp)]
  rw [hhead]
  dsimp only
  rw [if_pos ⟨hmax, hlat⟩]

/-- C2, amended, witness: a concrete healthy window. -/
theorem claim_C2_amended_witness :
    (runHealthCheck true ("checkout-api")
      [⟨some (1/10), some (3/10), some 120, some 12, some 40⟩] [⟨some 1, some 200⟩]).status =
      "HEALTHY" :=
  claim_C2_amended ("checkout-api") _ _ _ rfl (by norm_num [jsOr0]) (by norm_num [jsOr0])

/-! ## Claims C6 and C7: tool dispatcher error handling -/

/-- C6, counterexample: when the `get_service_health` handler throws
(e.g. the downstream ES|QL call fails), the dispatcher responds with a
normal result whose payload is `{error: <message>}` — the result object
does not contain a `success: false` field, contrary to the claim. -/
theorem claim_C6_counterexample :
    mcpPost (fun _ => .error ("ES|QL error: connect ECONNREFUSED")) "tools/call"
      (.n 1) "get_service_health" =
      (.result (.n 1)
        (wrapContent (.obj [("error", .s ("ES|QL error: connect ECONNREFUSED"))])),
       some ("get_service_health")) ∧
    JVal.lookup (.obj [("error", .s ("ES|QL error: connect ECONNREFUSED"))]) "success" =
      none := by
  exact ⟨rfl, rfl⟩

/-- C6, amended: for every catalogued tool whose handler throws, the
dispatcher catches the error and responds with a normal protocol-level
result object carrying the thrown message in an `error` field; the
failure never propagates as a JSON-RPC error.  (The result object does
not contain a `success: false` field.) -/
theorem claim_C6_amended (run : String → HandlerOutcome) (id : JVal)
    (name : String) (msg : String)
    (hmem : name ∈ toolNames) (hrun : run name = .error msg) :
    mcpPost run ("tools/call") id name =
      (.result id (wrapContent (.obj [("error", .s msg)])), some name) := by
  unfold mcpPost
  rw [if_neg (by decide), if_neg (by decide), if_pos rfl]
  fin_cases hmem <;>
    simp [toolsCallResult, catchWrap, hrun]

/-- C6, amended, witness: a concrete throwing handler. -/
theorem claim_C6_amended_witness :
    mcpPost (fun _ => .error ("boom")) "tools/call" (.n 7) "run_health_check" =
      (.result (.n 7) (wrapContent (.obj [("error", .s ("boom"))])),
       some ("run_health_check")) :=
  claim_C6_amended (fun _ => .error ("boom")) (.n 7) "run_health_check" "boom"
    (by decide) rfl

/-- C7: a `tools/call` with a name outside the fixed catalog yields a
normal result carrying an "Unknown tool" message, mirrors the request
id, invokes no handler (hence has no side effects), and is not a
protocol-level fault. -/
theorem claim_C7 (run : String → HandlerOutcome) (id : JVal) (name : String)
    (h : ¬ name ∈ toolNames) :
    mcpPost run ("tools/call") id name =
      (.result id (wrapContent (.obj [("error", .s ("Unknown tool: " ++ name))])),
       none) := by
  simp only [toolNames, List.mem_cons, List.not_mem_nil, or_false] at h
  push_neg at h
  obtain ⟨h1, h2, h3, h4, h5, h6, h7, h8, h9, h10, h11, h12, h13, h14, h15, h16⟩ := h
  unfold mcpPost
  rw [if_neg (by decide), if_neg (by decide), if_pos rfl]
  unfold toolsCallResult
  rw [if_neg h1, if_neg h2, if_neg h3, if_neg h4, if_neg h5, if_neg h6, if_neg h7,
    if_neg h8, if_neg h9, if_neg h10, if_neg h11, if_neg h12, if_neg h13, if_neg h14,
    if_neg h15, if_neg h16]

/-- C7, witness: a concrete unrecognized tool name. -/
theorem claim_C7_witness :
    mcpPost (fun _ => .error ("never invoked")) "tools/call" (.s ("req-3")) "restart_server" =
      (.result (.s ("req-3"))
        (wrapContent (.obj [("error", .s ("Unknown tool: restart_server"))])),
       none) :=
  claim_C7 (fun _ => .error ("never invoked")) (.s ("req-3")) "restart_server" (by decide)

/-! ## Claim C8: rollback partial failure -/

/-- C8, counterexample: with Telegram configured but its HTTP send
failing, `executeRollback` still reports `success: true` and the
per-channel flag `notifications.telegram = true`, although the channel
was not reachable (the discarded `sendTelegram` result is
`success: false`): the flags report configuration, not reachability. -/
theorem claim_C8_counterexample :
    (executeRollback ⟨true, false, true, "team-chat"⟩ true ("deploy-1")
      false ("Bad Request: chat not found") false ("msg").data).result.success = true ∧
    (executeRollback ⟨true, false, true, "team-chat"⟩ true ("deploy-1")
      false ("Bad Request: chat not found") false ("msg").data).result.notifTelegram = true ∧
    (executeRollback ⟨true, false, true, "team-chat"⟩ true ("deploy-1")
      false ("Bad Request: chat not found") false ("msg").data).tgResult.success = false := by
  refine ⟨rfl, rfl, ?_⟩
  rfl

/-- C8, amended: when the primary persisted effect succeeds, a failing
secondary notification neither rolls it back nor fails the invocation:
the result still reports overall success together with per-channel flags
that reflect which notification channels are configured (and were
therefore attempted), not whether delivery succeeded. -/
theorem claim_C8_amended (cfg : Cfg) (esOk : Bool) (esId : String)
    (tgFirstOk : Bool) (tgErrBody : String) (tgRetryOk : Bool) (msg : List Char)
    (hes : cfg.elastic = true) (hok : esOk = true) :
    (executeRollback cfg esOk esId tgFirstOk tgErrBody tgRetryOk msg).result.success =
      true ∧
    Effect.esIndex ("deployments") ∈
      (executeRollback cfg esOk esId tgFirstOk tgErrBody tgRetryOk msg).effects ∧
    (∀ i, ¬ Effect.esDelete i ∈
      (executeRollback cfg esOk esId tgFirstOk tgErrBody tgRetryOk msg).effects) ∧
    (executeRollback cfg esOk esId tgFirstOk tgErrBody tgRetryOk msg).result.notifSlack =
      cfg.slackWebhook ∧
    (executeRollback cfg esOk esId tgFirstOk tgErrBody tgRetryOk msg).result.notifTelegram =
      cfg.tgToken := by
  unfold executeRollback
  refine ⟨rfl, ?_, ?_, rfl, rfl⟩
  · rw [hes]
    simp
  · intro i hmem
    dsimp only at hmem
    rcases List.mem_append.mp hmem with hmem | hmem
    · rcases List.mem_append.mp hmem with hmem | hmem
      · split_ifs at hmem <;> simp at hmem
      · split_ifs at hmem <;> simp at hmem
    · rcases List.mem_map.mp hmem with ⟨r, _, habs⟩
      cases habs

/-- C8, amended, witness: the concrete partial-failure scenario of the
counterexample still reports success with the Elasticsearch write kept. -/
theorem claim_C8_amended_witness :
    (executeRollback ⟨true, false, true, "team-chat"⟩ true ("deploy-1")
      false ("Bad Request: chat not found") false ("msg").data).result.success = true ∧
    Effect.esIndex ("deployments") ∈
      (executeRollback ⟨true, false, true, "team-chat"⟩ true ("deploy-1")
        false ("Bad Request: chat not found") false ("msg").data).effects := by
  have h := claim_C8_amended ⟨true, false, true, "team-chat"⟩ true ("deploy-1")
    false ("Bad Request: chat not found") false ("msg").data rfl rfl
  exact ⟨h.1, h.2.1⟩

/-! ## Claim C5: scheduled-scan suppression and alerting -/

/-- C5: with the alert channel configured, a scan whose reply matches an
"all systems normal" phrasing sends no outbound alert; a reply matching
no such phrasing produces exactly one outbound alert, every HTTP request
body of which is within the platform's 4096-character limit. -/
theorem claim_C5 (raw : List Char) (defaultChat : String)
    (firstOk : Bool) (errBody : String) (retryOk : Bool) :
    (scanIsHealthy raw = true →
      autonomousScan raw true true defaultChat firstOk errBody retryOk =
        ⟨[], []⟩) ∧
    (scanIsHealthy raw = false →
      (autonomousScan raw true true defaultChat firstOk errBody retryOk).alerts.length
        = 1 ∧
      ∀ r ∈ (autonomousScan raw true true defaultChat firstOk errBody retryOk).requests,
        r.text.length ≤ 4096) := by
  constructor
  · intro hh
    unfold autonomousScan
    rw [if_neg (by simp [hh])]
  · intro hh
    unfold autonomousScan
    rw [if_pos (by simp [hh])]
    exact ⟨rfl, sendTelegramM_text_le true defaultChat defaultChat _ firstOk errBody retryOk⟩

/-- C5, witness: a healthy reply is suppressed; an unhealthy reply
produces exactly one alert. -/
theorem claim_C5_witness :
    autonomousScan ("All systems normal.").data true true ("chat") true ("") true =
      ⟨[], []⟩ ∧
    (autonomousScan ("error spike detected").data true true ("chat") true ("") true).alerts.length
      = 1 :=
  ⟨(claim_C5 ("All systems normal.").data ("chat") true ("") true).1 (by decide),
   ((claim_C5 ("error spike detected").data ("chat") true ("") true).2 (by decide)).1⟩

/-! ## Claim C9: formatter identity on markup-free text -/

theorem allLineStartsGo_cons (q : List Char → Bool) (c : Char) (t : List Char)
    (h : allLineStartsGo q (c :: t) = true) :
    allLineStartsGo q t = true ∧ (c = '\n' → q t = true) := by
  rw [allLineStartsGo, Bool.and_eq_true] at h
  refine ⟨h.2, ?_⟩
  intro hc
  have h1 := h.1
  rw [if_pos hc] at h1
  exact h1

theorem lineStartPass_id (tryA : List Char → Option (MatchStep Bool))
    (q : List Char → Bool)
    (hfail : ∀ l, q l = true → tryA l = none)
    (l : List Char) (hq : allLineStarts q l = true) :
    globalReplaceSt (atLineStart tryA) updLineStart true l = l := by
  rw [allLineStarts, Bool.and_eq_true] at hq
  refine globalReplaceSt_id _ _
    (fun s l => (s = true → q l = true) ∧ allLineStartsGo q l = true) ?_ ?_ l true
    ⟨fun _ => hq.1, hq.2⟩
  · intro s c t h
    unfold atLineStart
    by_cases hs : s = true
    · rw [if_pos hs]
      exact hfail _ (h.1 hs)
    · rw [if_neg hs]
  · intro s c t h
    obtain ⟨hgo, hnl⟩ := allLineStartsGo_cons q c t h.2
    refine ⟨?_, hgo⟩
    intro hupd
    unfold updLineStart at hupd
    exact hnl (by simpa using hupd)

theorem plainPass_id {σ : Type} (tryM : σ → List Char → Option (MatchStep σ))
    (upd : σ → Char → σ) (P : List Char → Prop)
    (hnone : ∀ s c t, P (c :: t) → tryM s (c :: t) = none)
    (htail : ∀ c t, P (c :: t) → P t)
    (l : List Char) (s : σ) (h : P l) :
    globalReplaceSt tryM upd s l = l :=
  globalReplaceSt_id tryM upd (fun _ l => P l) hnone (fun _ c t hP => htail c t hP) l s h

theorem tryBoldStar_none (s : Unit) (c : Char) (t : List Char)
    (h : ¬ '*' ∈ (c :: t)) : tryBoldStar s (c :: t) = none := by
  unfold tryBoldStar
  rw [if_neg ?hc]
  case hc =>
    intro heq
    rw [show (c :: t).take 2 = c :: t.take 1 from rfl] at heq
    injection heq with h1 _
    exact h (h1 ▸ List.mem_cons_self c t)

theorem tryBoldUnder_none (s : Unit) (c : Char) (t : List Char)
    (h : ¬ '_' ∈ (c :: t)) : tryBoldUnder s (c :: t) = none := by
  unfold tryBoldUnder
  rw [if_neg ?hc]
  case hc =>
    intro heq
    rw [show (c :: t).take 2 = c :: t.take 1 from rfl] at heq
    injection heq with h1 _
    exact h (h1 ▸ List.mem_cons_self c t)

theorem tryItalicStar_none (prev : Option Char) (c : Char) (t : List Char)
    (h : ¬ '*' ∈ (c :: t)) : tryItalicStar prev (c :: t) = none := by
  unfold tryItalicStar
  by_cases hp : (match prev with | some p => jsWord p | none => false) = true
  · rw [if_pos hp]
  · rw [if_neg hp, if_neg ?hc]
    case hc =>
      intro heq
      rw [show (c :: t).take 1 = [c] from rfl] at heq
      injection heq with h1 _
      exact h (h1 ▸ List.mem_cons_self c t)

theorem tryItalicUnder_none (prev : Option Char) (c : Char) (t : List Char)
    (h : ¬ '_' ∈ (c :: t)) : tryItalicUnder prev (c :: t) = none := by
  unfold tryItalicUnder
  by_cases hp : (match prev with | some p => jsWord p | none => false) = true
  · rw [if_pos hp]
  · rw [if_neg hp, if_neg ?hc]
    case hc =>
      intro heq
      rw [show (c :: t).take 1 = [c] from rfl] at heq
      injection heq with h1 _
      exact h (h1 ▸ List.mem_cons_self c t)

theorem tryInlineCode_none (s : Unit) (c : Char) (t : List Char)
    (h : ¬ btick ∈ (c :: t)) : tryInlineCode s (c :: t) = none := by
  unfold tryInlineCode
  rw [if_neg ?hc]
  case hc =>
    intro heq
    rw [show (c :: t).take 1 = [c] from rfl] at heq
    injection heq with h1 _
    exact h (h1 ▸ List.mem_cons_self c t)

theorem tryFence_none (s : Unit) (c : Char) (t : List Char)
    (h : ¬ btick ∈ (c :: t)) : tryFence s (c :: t) = none := by
  unfold tryFence
  rw [if_neg ?hc]
  case hc =>
    intro heq
    rw [show (c :: t).take 3 = c :: t.take 2 from rfl] at heq
    injection heq with h1 _
    exact h (h1 ▸ List.mem_cons_self c t)

theorem tryStrike_none (s : Unit) (c : Char) (t : List Char)
    (h : ¬ ['~', '~'] <:+: (c :: t)) : tryStrike s (c :: t) = none := by
  unfold tryStrike
  rw [if_neg ?hc]
  case hc =>
    intro heq
    apply h
    have hpre : (c :: t).take 2 <+: (c :: t) := List.take_prefix 2 (c :: t)
    rw [heq] at hpre
    exact hpre.isInfix

theorem tryLink_none (s : Unit) (c : Char) (t : List Char)
    (h : ¬ '[' ∈ (c :: t)) : tryLink s (c :: t) = none := by
  unfold tryLink
  rw [if_neg ?hc]
  case hc =>
    intro heq
    rw [show (c :: t).take 1 = [c] from rfl] at heq
    injection heq with h1 _
    exact h (h1 ▸ List.mem_cons_self c t)

theorem tryCollapse_none (s : Unit) (c : Char) (t : List Char)
    (h : ¬ ['\n', '\n', '\n'] <:+: (c :: t)) : tryCollapse s (c :: t) = none := by
  unfold tryCollapse
  rw [if_neg ?hc]
  case hc =>
    intro heq
    apply h
    have hpre : (c :: t).take 3 <+: (c :: t) := List.take_prefix 3 (c :: t)
    rw [heq] at hpre
    exact hpre.isInfix

theorem tryHeaderFull_none (l : List Char) (hq : qHeaderOk l = true) :
    tryHeaderFull l = none := by
  unfold tryHeaderFull
  have hz : (l.takeWhile (fun c => c = '#')).length = 0 := by
    cases l with
    | nil => rfl
    | cons c t =>
      unfold qHeaderOk at hq
      simp only [decide_eq_true_eq, List.head?_cons, Option.some.injEq] at hq
      rw [List.takeWhile_cons, if_neg (by simpa using hq)]
      rfl
  rw [if_neg ?hc]
  case hc =>
    rintro ⟨h1, -⟩
    rw [hz] at h1
    omega

theorem tryHr_none (l : List Char) (hq : qBulletOk l = true) : tryHr l = none := by
  unfold tryHr
  have hz : (l.takeWhile (fun c => c = '-' ∨ c = '*')).length = 0 := by
    cases l with
    | nil => rfl
    | cons c t =>
      rw [List.takeWhile_cons]
      by_cases hc : (c = '-' ∨ c = '*')
      · exfalso
        unfold qBulletOk at hq
        have hws : jsWs c = false := by
          rcases hc with rfl | rfl <;> decide
        rw [List.dropWhile_cons, if_neg (by simp [hws])] at hq
        simp only [List.head?_cons, decide_eq_true_eq] at hq
        exact hq (by tauto)
      · rw [if_neg (by simpa using hc)]
        rfl
  dsimp only
  rw [if_neg ?hc]
  case hc =>
    rintro ⟨h3, -⟩
    rw [hz] at h3
    omega

theorem drop_takeWhile_length (p : Char → Bool) (l : List Char) :
    l.drop (l.takeWhile p).length = l.dropWhile p := by
  induction l with
  | nil => rfl
  | cons c t ih =>
    rw [List.takeWhile_cons, List.dropWhile_cons]
    by_cases hc : p c = true
    · rw [if_pos hc, if_pos hc]
      simp only [List.length_cons, List.drop_succ_cons]
      exact ih
    · rw [if_neg hc, if_neg hc]
      rfl

theorem tryBullet_none (l : List Char) (hq : qBulletOk l = true) :
    tryBullet l = none := by
  unfold tryBullet
  unfold qBulletOk at hq
  dsimp only
  rw [drop_takeWhile_length jsWs l]
  cases hh : (l.dropWhile jsWs).head? with
  | none => rfl
  | some c =>
    rw [hh] at hq
    simp only [decide_eq_true_eq] at hq
    dsimp only
    rw [if_neg hq]

theorem tryNumbered_none (l : List Char) (hq : qNumberedOk l = true) :
    tryNumbered l = none := by
  unfold tryNumbered
  unfold qNumberedOk at hq
  dsimp only at hq ⊢
  rw [drop_takeWhile_length jsWs l]
  by_cases h0 : ((l.dropWhile jsWs).takeWhile jsDigit).length = 0
  · rw [if_pos h0]
  · rw [if_neg h0]
    have hq' : ((l.dropWhile jsWs).takeWhile jsDigit).length = 0 ∨
        ¬ ((l.dropWhile jsWs).drop
            ((l.dropWhile jsWs).takeWhile jsDigit).length).head? = some '.' := by
      simpa using hq
    rcases hq' with ha | hb
    · exact absurd ha h0
    · rw [if_neg hb]

/-- Under absence of markup constructs and of triple line breaks, every
replacement pass of the formatter is the identity, so `mdToTelegramHtml`
reduces to the final `.trim()`. -/
theorem mdToTelegramHtml_eq_trim (l : List Char)
    (hm : noMarkupText l = true) (h3 : noTripleNl l = true) :
    mdToTelegramHtml l = jsTrimL l := by
  unfold noMarkupText at hm
  simp only [Bool.and_eq_true, decide_eq_true_eq] at hm
  obtain ⟨⟨⟨⟨⟨⟨⟨hstar, hunder⟩, htick⟩, hbrack⟩, hstrike⟩, hheader⟩, hbullet⟩, hnum⟩ := hm
  have hstrike' : ¬ (['~', '~'] <:+: l) := fun hx =>
    hstrike (by rw [jsIncludesL]; exact decide_eq_true hx)
  unfold noTripleNl at h3
  have h3'' := of_decide_eq_true h3
  have h3' : ¬ (['\n', '\n', '\n'] <:+: l) := fun hx =>
    h3'' (by rw [jsIncludesL]; exact decide_eq_true hx)
  have memtail : ∀ (x c : Char) (t : List Char), ¬ x ∈ (c :: t) → ¬ x ∈ t :=
    fun x c t h hx => h (List.mem_cons_of_mem c hx)
  have infixtail : ∀ (x : List Char) (c : Char) (t : List Char),
      ¬ x <:+: (c :: t) → ¬ x <:+: t :=
    fun x c t h hx => h (hx.trans (List.suffix_cons c t).isInfix)
  unfold mdToTelegramHtml
  by_cases h0 : l.length = 0
  · rw [if_pos h0]
    have : l = [] := List.length_eq_zero.mp h0
    subst this
    rfl
  · rw [if_neg h0]
    dsimp only
    rw [lineStartPass_id tryHeaderFull qHeaderOk tryHeaderFull_none l hheader]
    rw [plainPass_id tryBoldStar (fun _ _ => ()) (fun l => ¬ '*' ∈ l)
      tryBoldStar_none (memtail '*') l () hstar]
    rw [plainPass_id tryBoldUnder (fun _ _ => ()) (fun l => ¬ '_' ∈ l)
      tryBoldUnder_none (memtail '_') l () hunder]
    rw [plainPass_id tryItalicStar updPrev (fun l => ¬ '*' ∈ l)
      tryItalicStar_none (memtail '*') l none hstar]
    rw [plainPass_id tryItalicUnder updPrev (fun l => ¬ '_' ∈ l)
      tryItalicUnder_none (memtail '_') l none hunder]
    rw [plainPass_id tryInlineCode (fun _ _ => ()) (fun l => ¬ btick ∈ l)
      tryInlineCode_none (memtail btick) l () htick]
    rw [plainPass_id tryFence (fun _ _ => ()) (fun l => ¬ btick ∈ l)
      tryFence_none (memtail btick) l () htick]
    rw [plainPass_id tryStrike (fun _ _ => ()) (fun l => ¬ ['~', '~'] <:+: l)
      tryStrike_none (infixtail ['~', '~']) l () hstrike']
    rw [plainPass_id tryLink (fun _ _ => ()) (fun l => ¬ '[' ∈ l)
      tryLink_none (memtail '[') l () hbrack]
    rw [lineStartPass_id tryHr qBulletOk tryHr_none l hbullet]
    rw [lineStartPass_id tryBullet qBulletOk tryBullet_none l hbullet]
    rw [lineStartPass_id tryNumbered qNumberedOk tryNumbered_none l hnum]
    rw [plainPass_id tryCollapse (fun _ _ => ())
      (fun l => ¬ ['\n', '\n', '\n'] <:+: l)
      tryCollapse_none (infixtail ['\n', '\n', '\n']) l () h3']

/-- C9, counterexample: `"a\n\n\nb"` contains none of the claim's markup
constructs, yet the formatter does not return it unchanged up to
trimming: the `\n{3,}` pass collapses the blank-line run. -/
theorem claim_C9_counterexample :
    noMarkupText ("a\n\n\nb").data = true ∧
    mdToTelegramHtml ("a\n\n\nb").data ≠ jsTrimL ("a\n\n\nb").data := by
  constructor
  · decide
  · decide

/-- C9, amended: for every input with no markup constructs **and no run
of three or more consecutive line breaks**, `mdToTelegramHtml` returns
the input unchanged except for trimming leading and trailing
whitespace. -/
theorem claim_C9_amended (l : List Char) (hm : noMarkupText l = true)
    (h3 : noTripleNl l = true) : mdToTelegramHtml l = jsTrimL l :=
  mdToTelegramHtml_eq_trim l hm h3

/-- C9, amended, witness: a concrete markup-free input is returned
trimmed. -/
theorem claim_C9_amended_witness :
    mdToTelegramHtml ("  plain text, nothing fancy.\nsecond line  ").data =
      jsTrimL ("  plain text, nothing fancy.\nsecond line  ").data :=
  claim_C9_amended ("  plain text, nothing fancy.\nsecond line  ").data
    (by decide) (by decide)

end Apollo
